import Mathlib

/-!
Verification of the brizglass game phase state machine.

The definitions below are a shallow embedding of the API route handlers:

* `castVote`       — src/app/api/game/vote/route.ts (POST), together with
  `calculateAllAuthorPoints` and `calculateTruthPoints` from the same file;
* `startGame`      — src/app/api/game/start/route.ts (POST); the freezing of
  `playerOrder` is modelled from the spec, see the doc comment there;
* `autoAdvance`    — the auto-advance route of the aggregated variant,
  modelled from the spec, see the doc comment there;
* `statusProjection` — src/app/api/game/[code]/status/route.ts (GET).

A `GameState` holds one game together with its players and votes (every
player and vote query in the routes filters on the game id), plus the global
statements table (`payload.findByID` on statements is not game-scoped, which
is what claim C10 is about).
-/

namespace Brizglass

/-- The `status` select field of the Games collection. -/
inductive GameStatus
  | lobby
  | votingAuthor
  | resultsAuthor
  | votingTruth
  | resultsTruth
  | finished
deriving DecidableEq, Repr

/-- The `voteType` select field of the Votes collection. -/
inductive VoteKind
  | author
  | truth
deriving DecidableEq, Repr

/-- The Game document (fields relevant to the state machine).  `playerOrder`
is the JSON array of player ids; `currentPlayerId` is nullable. -/
structure Game where
  id : String
  status : GameStatus
  currentRound : Nat
  truthRound : Nat
  currentPlayerId : Option String
  playerOrder : List String
  adminToken : String
deriving DecidableEq, Repr

/-- The Player document (nickname, avatar and session token omitted: they do
not influence the state machine once the voter has been resolved). -/
structure Player where
  id : String
  score : Nat
  hasSubmittedStatements : Bool
  hasBeenGuessed : Bool
deriving DecidableEq, Repr

/-- The Statement document.  `gameId` and `playerId` record which game and
player the statement belongs to; the vote route never consults them. -/
structure Statement where
  id : String
  gameId : String
  playerId : String
  text : String
  order : Nat
  isTrue : Bool
deriving DecidableEq, Repr

/-- The Vote document. -/
structure Vote where
  round : Nat
  voterId : String
  kind : VoteKind
  votedPlayerId : Option String
  votedStatementId : Option String
  isCorrect : Bool
deriving DecidableEq, Repr

/-- One game of the database: the game document, its players, its votes, and
the global statements table (statement lookup by id is not game-scoped). -/
structure GameState where
  game : Game
  players : List Player
  statementsDB : List Statement
  votes : List Vote
deriving DecidableEq, Repr

/-- A vote request after session resolution: the voter id found from the
session cookie plus the request body. -/
structure VoteRequest where
  voterId : String
  kind : VoteKind
  votedPlayerId : Option String
  votedStatementId : Option String
deriving DecidableEq, Repr

/-- Error outcomes of the vote route (the 400/404 responses). -/
inductive VoteError
  | missingVotedPlayer
  | missingVotedStatement
  | notInAuthorPhase
  | notInTruthPhase
  | ownStatements
  | alreadyVoted
deriving DecidableEq, Repr

/-- Error outcomes of the start route. -/
inductive StartError
  | invalidAdminToken
  | alreadyStarted
  | notEnoughPlayers
deriving DecidableEq, Repr

/-- Error outcome of the auto-advance route. -/
inductive AdvanceError
  | notResultsPhase
deriving DecidableEq, Repr

/-- `payload.count` of votes for a round and kind of one game. -/
def countVotes (votes : List Vote) (round : Nat) (kind : VoteKind) : Nat :=
  (votes.filter (fun v => decide (v.round = round ∧ v.kind = kind))).length

/-- The duplicate-vote query: does `voterId` already have a vote for this
(round, kind) in this game? -/
def hasVoted (votes : List Vote) (round : Nat) (voterId : String)
    (kind : VoteKind) : Bool :=
  votes.any (fun v => decide (v.round = round ∧ v.voterId = voterId ∧ v.kind = kind))

/-- `payload.findByID` on the statements collection: a global lookup by id,
with no game or player filter. -/
def findStatement (db : List Statement) (sid : String) : Option Statement :=
  db.find? (fun st => decide (st.id = sid))

/-- The `eligibleVoters` computation of the vote route: all players of the
game whose id differs from the current on-stage player id. -/
def eligibleVoters (players : List Player) (currentPlayerId : Option String) : Nat :=
  (players.filter (fun p => decide (some p.id ≠ currentPlayerId))).length

/-- Read a player score the way `payload.findByID` does: first document with
this id, defaulting to 0 when absent. -/
def scoreOf : List Player → String → Nat
  | [], _ => 0
  | p :: ps, pid => if p.id = pid then p.score else scoreOf ps pid

/-- Whether a player document with this id exists. -/
def hasPlayer (players : List Player) (pid : String) : Bool :=
  players.any (fun p => decide (p.id = pid))

/-- The read-then-update of one voter: `score := voter.score + n`. -/
def addScore (players : List Player) (pid : String) (n : Nat) : List Player :=
  players.map (fun p => if p.id = pid then { p with score := p.score + n } else p)

/-- An absolute score write, `score := n` (used for the fooling bonus, whose
base score the route read before its scoring loop). -/
def setScore (players : List Player) (pid : String) (n : Nat) : List Player :=
  players.map (fun p => if p.id = pid then { p with score := n } else p)

/-- Award one point to the voter of each vote in the list (the author scoring
loop; its query already filtered on `isCorrect`). -/
def awardEach (players : List Player) (vs : List Vote) : List Player :=
  vs.foldl (fun acc v => addScore acc v.voterId 1) players

/-- Award one point to the voter of each correct vote in the list (the truth
scoring loop iterates all round votes and tests `isCorrect` per vote). -/
def awardCorrect (players : List Player) (vs : List Vote) : List Player :=
  vs.foldl (fun acc v => if v.isCorrect then addScore acc v.voterId 1 else acc) players

/-- `calculateAllAuthorPoints` of the vote route: for every round 1..N of
`playerOrder`, award +1 to each voter of a correct author vote of that round. -/
def calculateAllAuthorPoints (players : List Player) (votes : List Vote)
    (playerOrder : List String) : List Player :=
  (List.range playerOrder.length).foldl
    (fun ps r =>
      awardEach ps (votes.filter (fun v =>
        decide (v.round = r + 1 ∧ v.kind = VoteKind.author ∧ v.isCorrect = true))))
    players

/-- `calculateTruthPoints` of the vote route: +1 to each correct voter of the
round, and the on-stage player's score is rewritten to the score read before
the loop plus one fooling point per incorrect vote (skipped when zero). -/
def calculateTruthPoints (players : List Player) (votes : List Vote)
    (round : Nat) (currentPlayerId : String) : List Player :=
  let roundVotes := votes.filter (fun v =>
    decide (v.round = round ∧ v.kind = VoteKind.truth))
  let cpScore := scoreOf players currentPlayerId
  let scored := awardCorrect players roundVotes
  let foolingPoints := (roundVotes.filter (fun v => !v.isCorrect)).length
  if foolingPoints > 0 then setScore scored currentPlayerId (cpScore + foolingPoints)
  else scored

/-- The round pointer the vote route uses for the given kind: `currentRound`
for author votes, `truthRound` for truth votes. -/
def voteRound (g : Game) (kind : VoteKind) : Nat :=
  if kind = VoteKind.author then g.currentRound else g.truthRound

/-- The `isCorrect` computation at cast time.  Author: the voted player id
equals the game's current player id.  Truth: the `isTrue` flag of the
statement found by the global id lookup (false when the lookup misses). -/
def voteIsCorrect (g : Game) (s : GameState) (req : VoteRequest) : Bool :=
  if req.kind = VoteKind.author then decide (req.votedPlayerId = g.currentPlayerId)
  else
    match req.votedStatementId with
    | some sid =>
      match findStatement s.statementsDB sid with
      | some st => st.isTrue
      | none => false
    | none => false

/-- The Vote document the route creates. -/
def voteRecord (g : Game) (s : GameState) (req : VoteRequest) : Vote where
  round := voteRound g req.kind
  voterId := req.voterId
  kind := req.kind
  votedPlayerId := if req.kind = VoteKind.author then req.votedPlayerId else none
  votedStatementId := if req.kind = VoteKind.truth then req.votedStatementId else none
  isCorrect := voteIsCorrect g s req

/-- Validation and vote insertion phase of the vote route, parameterised by
the game snapshot `g` the handler read at its start (in a single sequential
request `g = s.game`; the parameter makes the read-then-write window of the
handler explicit). -/
def voteInsertPhase (g : Game) (s : GameState) (req : VoteRequest) :
    Except VoteError GameState :=
  if req.kind = VoteKind.author ∧ req.votedPlayerId = none then
    Except.error VoteError.missingVotedPlayer
  else if req.kind = VoteKind.truth ∧ req.votedStatementId = none then
    Except.error VoteError.missingVotedStatement
  else if req.kind = VoteKind.author ∧ g.status ≠ GameStatus.votingAuthor then
    Except.error VoteError.notInAuthorPhase
  else if req.kind = VoteKind.truth ∧ g.status ≠ GameStatus.votingTruth then
    Except.error VoteError.notInTruthPhase
  else if some req.voterId = g.currentPlayerId then
    Except.error VoteError.ownStatements
  else if hasVoted s.votes (voteRound g req.kind) req.voterId req.kind = true then
    Except.error VoteError.alreadyVoted
  else
    Except.ok { s with votes := s.votes ++ [voteRecord g s req] }

/-- Quorum check, scoring and game update phase of the vote route, again
parameterised by the snapshot `g`: the count is taken on the live votes, and
the final `payload.update` of the game is unconditional (no compare-and-set),
writing status, currentRound, truthRound and currentPlayerId values computed
from the snapshot. -/
def voteQuorumPhase (g : Game) (req : VoteRequest) (s : GameState) : GameState :=
  if countVotes s.votes (voteRound g req.kind) req.kind ≥
      eligibleVoters s.players g.currentPlayerId then
    if req.kind = VoteKind.author then
      if g.currentRound < g.playerOrder.length then
        { s with game := { s.game with
            status := GameStatus.votingAuthor
            currentRound := g.currentRound + 1
            truthRound := g.truthRound
            currentPlayerId := g.playerOrder[g.currentRound]? } }
      else
        { s with
            players := calculateAllAuthorPoints s.players s.votes g.playerOrder
            game := { s.game with
              status := GameStatus.resultsAuthor
              currentRound := g.currentRound
              truthRound := g.truthRound
              currentPlayerId := g.currentPlayerId } }
    else
      { s with
          players := calculateTruthPoints s.players s.votes g.truthRound
            (g.currentPlayerId.getD "")
          game := { s.game with
            status := GameStatus.resultsTruth
            currentRound := g.currentRound
            truthRound := g.truthRound
            currentPlayerId := g.currentPlayerId } }
  else s

/-- POST /api/game/vote: one sequential request, reading the game once and
running both phases on it. -/
def castVote (s : GameState) (req : VoteRequest) : Except VoteError GameState :=
  (voteInsertPhase s.game s req).map (voteQuorumPhase s.game req)

/-- Two concurrent vote requests A and B whose handlers both read the game
before either writes it: A inserts, B inserts, A runs its quorum phase, then
B runs its quorum phase.  Every individual storage operation is the same as
in `castVote`; only the interleaving differs. -/
def racyQuorumExecution (s : GameState) (reqA reqB : VoteRequest) :
    Except VoteError GameState :=
  (voteInsertPhase s.game s reqA).bind (fun s1 =>
    (voteInsertPhase s.game s1 reqB).map (fun s2 =>
      voteQuorumPhase s.game reqB (voteQuorumPhase s.game reqA s2)))

/-- POST /api/game/start.  Token, lobby and ready-player guards are from
src/app/api/game/start/route.ts.  Modelled from the spec: the freezing of
`playerOrder` as the ordered list of the ready players and
`currentPlayerId = playerOrder[0]` — the start route under src/ is a stale
snapshot of the sequential variant that never writes `playerOrder`, although
the Games collection declares it as set at game start and the vote and status
routes consume it.  The spec leaves the order an implementation choice; the
query order of the ready players is used here. -/
def startGame (s : GameState) (adminToken : String) : Except StartError GameState :=
  if s.game.adminToken ≠ adminToken then Except.error StartError.invalidAdminToken
  else if s.game.status ≠ GameStatus.lobby then Except.error StartError.alreadyStarted
  else if (s.players.filter (fun p => p.hasSubmittedStatements)).length < 2 then
    Except.error StartError.notEnoughPlayers
  else
    Except.ok { s with game := { s.game with
      status := GameStatus.votingAuthor
      currentRound := 1
      currentPlayerId :=
        ((s.players.filter (fun p => p.hasSubmittedStatements)).map
          (fun p => p.id)).head?
      playerOrder :=
        (s.players.filter (fun p => p.hasSubmittedStatements)).map
          (fun p => p.id) } }

/-- POST /api/game/auto-advance.  Modelled from the spec: the aggregated
variant of the auto-advance route is missing from src/ (the file there is a
stale sequential-variant snapshot that never touches `truthRound` and returns
no `isFinishing` field, while the play page caller expects one).  Per the
spec: only legal from a results phase; results-author moves to voting-truth
with `truthRound = 1` and `currentPlayerId = playerOrder[0]`; results-truth
either advances `truthRound` and the on-stage player and returns to
voting-truth (when `truthRound < len(playerOrder)`) or finishes. -/
def autoAdvance (s : GameState) : Except AdvanceError GameState :=
  if s.game.status = GameStatus.resultsAuthor then
    Except.ok { s with game := { s.game with
      status := GameStatus.votingTruth
      truthRound := 1
      currentPlayerId := s.game.playerOrder.head? } }
  else if s.game.status = GameStatus.resultsTruth then
    if s.game.truthRound < s.game.playerOrder.length then
      Except.ok { s with game := { s.game with
        status := GameStatus.votingTruth
        truthRound := s.game.truthRound + 1
        currentPlayerId := s.game.playerOrder[s.game.truthRound]? } }
    else
      Except.ok { s with game := { s.game with status := GameStatus.finished } }
  else Except.error AdvanceError.notResultsPhase

/-- Rank of a status in the fixed forward sequence. -/
def statusRank : GameStatus → Nat
  | GameStatus.lobby => 0
  | GameStatus.votingAuthor => 1
  | GameStatus.resultsAuthor => 2
  | GameStatus.votingTruth => 3
  | GameStatus.resultsTruth => 4
  | GameStatus.finished => 5

/-- A legal status movement: unchanged, strictly forward in the fixed
sequence, or the one sanctioned return results-truth to voting-truth. -/
def ForwardStep (a b : GameStatus) : Prop :=
  b = a ∨ statusRank a < statusRank b ∨
    (a = GameStatus.resultsTruth ∧ b = GameStatus.votingTruth)

/-- Number of correct author votes cast by voter `q` in round `r`. -/
def correctAuthorVotesBy (votes : List Vote) (r : Nat) (q : String) : Nat :=
  ((votes.filter (fun v =>
    decide (v.round = r ∧ v.kind = VoteKind.author ∧ v.isCorrect = true))).filter
    (fun v => decide (v.voterId = q))).length

/-- The truth votes of round `r`. -/
def truthVotesOf (votes : List Vote) (r : Nat) : List Vote :=
  votes.filter (fun v => decide (v.round = r ∧ v.kind = VoteKind.truth))

/-- Number of correct truth votes of round `r`. -/
def countCorrectTruth (votes : List Vote) (r : Nat) : Nat :=
  ((truthVotesOf votes r).filter (fun v => v.isCorrect)).length

/-- The author-scoring loop over rounds 1..n (the body of
`calculateAllAuthorPoints`, with the round bound made explicit for
induction). -/
def authorRoundsFold (players : List Player) (votes : List Vote) (n : Nat) :
    List Player :=
  (List.range n).foldl
    (fun ps r =>
      awardEach ps (votes.filter (fun v =>
        decide (v.round = r + 1 ∧ v.kind = VoteKind.author ∧ v.isCorrect = true))))
    players

/-- A statement as rendered by the status route: `isTrue` is `none` when the
route withholds the flag. -/
structure ProjectedStatement where
  id : String
  text : String
  order : Nat
  isTrue : Option Bool
deriving DecidableEq, Repr

/-- One line of the per-voter roster of the status route. -/
structure VoterStatusEntry where
  id : String
  hasVoted : Bool
deriving DecidableEq, Repr

/-- The parts of the status response the reveal-gating claims are about. -/
structure StatusProjection where
  status : GameStatus
  currentRound : Nat
  truthRound : Nat
  currentStatements : Option (List ProjectedStatement)
  votesReceived : Nat
  voterIds : List String
  voterStatus : Option (List VoterStatusEntry)
deriving DecidableEq, Repr

/-- GET /api/game/[code]/status, restricted to the round statements, the vote
progress data and the per-voter roster.  Statements are listed only when a
current player is set and the status is voting-author, voting-truth or
results-truth, and their `isTrue` flag is only populated in results-truth or
finished.  During voting-author only the vote count is computed and the voter
id list stays empty; during voting-truth the round's truth votes are listed
with their voter ids (the route's limit of 100 documents is immaterial here).
The roster is built only during voting-truth, from the players other than the
on-stage one.  Nickname and avatar fields are display-only and omitted. -/
def statusProjection (s : GameState) : StatusProjection :=
  let g := s.game
  let currentStatements :=
    match g.currentPlayerId with
    | some cp =>
      if g.status = GameStatus.votingAuthor ∨ g.status = GameStatus.votingTruth ∨
          g.status = GameStatus.resultsTruth then
        some ((s.statementsDB.filter (fun st =>
            decide (st.gameId = g.id ∧ st.playerId = cp))).map
          (fun st =>
            { id := st.id, text := st.text, order := st.order,
              isTrue :=
                if g.status = GameStatus.resultsTruth ∨ g.status = GameStatus.finished
                then some st.isTrue else none }))
      else none
    | none => none
  let votesData :=
    if g.status = GameStatus.votingAuthor ∧ 0 < g.currentRound then
      (countVotes s.votes g.currentRound VoteKind.author, ([] : List String))
    else if g.status = GameStatus.votingTruth ∧ 0 < g.truthRound then
      let vs := truthVotesOf s.votes g.truthRound
      (vs.length, vs.map (fun v => v.voterId))
    else (0, [])
  let eligible := s.players.filter (fun p => decide (some p.id ≠ g.currentPlayerId))
  let voterStatus :=
    if g.status = GameStatus.votingTruth then
      some (eligible.map (fun p =>
        { id := p.id, hasVoted := votesData.2.contains p.id }))
    else none
  { status := g.status, currentRound := g.currentRound, truthRound := g.truthRound,
    currentStatements := currentStatements, votesReceived := votesData.1,
    voterIds := votesData.2, voterStatus := voterStatus }

/-- Shorthand for a player document. -/
def mkPlayer (pid : String) (score : Nat) (submitted : Bool) : Player :=
  { id := pid, score := score, hasSubmittedStatements := submitted,
    hasBeenGuessed := false }

/-- Shorthand for a game document. -/
def mkGame (gid : String) (st : GameStatus) (cr tr : Nat) (cp : Option String)
    (order : List String) : Game :=
  { id := gid, status := st, currentRound := cr, truthRound := tr,
    currentPlayerId := cp, playerOrder := order, adminToken := "adm" }

/-- Three-player game sitting in results-truth after its first truth round. -/
def c1State : GameState :=
  { game := mkGame "g1" GameStatus.resultsTruth 3 1 (some "p1") ["p1", "p2", "p3"],
    players := [mkPlayer "p1" 2 true, mkPlayer "p2" 1 true, mkPlayer "p3" 0 true],
    statementsDB := [], votes := [] }

/-- The state `c1State` advances to. -/
def c1Next : GameState :=
  { c1State with
    game := mkGame "g1" GameStatus.votingTruth 3 2 (some "p2") ["p1", "p2", "p3"] }

/-- A lobby with three ready players and one player who joined without
submitting statements. -/
def c2State : GameState :=
  { game := mkGame "g2" GameStatus.lobby 0 0 none [],
    players := [mkPlayer "p1" 0 true, mkPlayer "p2" 0 true, mkPlayer "p3" 0 true,
      mkPlayer "p4" 0 false],
    statementsDB := [], votes := [] }

/-- The state `c2State` starts into. -/
def c2Started : GameState :=
  { c2State with
    game := mkGame "g2" GameStatus.votingAuthor 1 0 (some "p1") ["p1", "p2", "p3"] }

/-- A three-player game sitting in results-author. -/
def c3State : GameState :=
  { game := mkGame "g3" GameStatus.resultsAuthor 3 0 (some "p3") ["p1", "p2", "p3"],
    players := [mkPlayer "p1" 1 true, mkPlayer "p2" 0 true, mkPlayer "p3" 2 true],
    statementsDB := [], votes := [] }

/-- The state `c3State` advances to. -/
def c3Next : GameState :=
  { c3State with
    game := mkGame "g3" GameStatus.votingTruth 3 1 (some "p1") ["p1", "p2", "p3"] }

/-- Counterexample state for the author quorum: three players joined the
game but only two submitted statements, so `playerOrder` has length 2 while
the route counts three players minus the on-stage one as eligible voters. -/
def c4CexState : GameState :=
  { game := mkGame "g4c" GameStatus.votingAuthor 1 0 (some "p1") ["p1", "p2"],
    players := [mkPlayer "p1" 0 true, mkPlayer "p2" 0 true, mkPlayer "p4" 0 false],
    statementsDB := [], votes := [] }

/-- The author vote that brings the round count to one less than the length
of `playerOrder`. -/
def c4CexReq : VoteRequest :=
  { voterId := "p2", kind := VoteKind.author, votedPlayerId := some "p1",
    votedStatementId := none }

/-- Two-player author round one about to complete. -/
def c4State : GameState :=
  { game := mkGame "g4" GameStatus.votingAuthor 1 0 (some "p1") ["p1", "p2"],
    players := [mkPlayer "p1" 0 true, mkPlayer "p2" 0 true],
    statementsDB := [], votes := [] }

/-- The quorum-completing author vote for `c4State`. -/
def c4Req : VoteRequest :=
  { voterId := "p2", kind := VoteKind.author, votedPlayerId := some "p1",
    votedStatementId := none }

/-- The state `c4State` advances to. -/
def c4Next : GameState :=
  { c4State with
    game := mkGame "g4" GameStatus.votingAuthor 2 0 (some "p2") ["p1", "p2"],
    votes := [⟨1, "p2", VoteKind.author, some "p1", none, true⟩] }

/-- Truth round for on-stage p1 (spec scenario B): p2 already voted the true
statement, p3 is about to vote a false one. -/
def c5State : GameState :=
  { game := mkGame "g5" GameStatus.votingTruth 3 1 (some "p1") ["p1", "p2", "p3"],
    players := [mkPlayer "p1" 0 true, mkPlayer "p2" 0 true, mkPlayer "p3" 0 true],
    statementsDB := [⟨"s1", "g5", "p1", "a", 1, false⟩,
      ⟨"s2", "g5", "p1", "b", 2, true⟩, ⟨"s3", "g5", "p1", "c", 3, false⟩],
    votes := [⟨1, "p2", VoteKind.truth, none, some "s2", true⟩] }

/-- The quorum-completing (incorrect) truth vote for `c5State`. -/
def c5Req : VoteRequest :=
  { voterId := "p3", kind := VoteKind.truth, votedPlayerId := none,
    votedStatementId := some "s1" }

/-- The state `c5State` advances to: p2 gains the correct-guess point and p1
gains one fooling point for the single incorrect guesser. -/
def c5Next : GameState :=
  { c5State with
    players := [mkPlayer "p1" 1 true, mkPlayer "p2" 1 true, mkPlayer "p3" 0 true],
    votes := c5State.votes ++ [⟨1, "p3", VoteKind.truth, none, some "s1", false⟩],
    game := mkGame "g5" GameStatus.resultsTruth 3 1 (some "p1") ["p1", "p2", "p3"] }

/-- A lobby about to start (used for the forward-step witness). -/
def c6State : GameState :=
  { game := mkGame "g6" GameStatus.lobby 0 0 none [],
    players := [mkPlayer "p1" 0 true, mkPlayer "p2" 0 true],
    statementsDB := [], votes := [] }

/-- The state `c6State` starts into. -/
def c6Started : GameState :=
  { c6State with
    game := mkGame "g6" GameStatus.votingAuthor 1 0 (some "p1") ["p1", "p2"] }

/-- A voting-truth game whose on-stage player tries to vote. -/
def c7State : GameState :=
  { game := mkGame "g7" GameStatus.votingTruth 3 1 (some "p1") ["p1", "p2", "p3"],
    players := [mkPlayer "p1" 0 true, mkPlayer "p2" 0 true, mkPlayer "p3" 0 true],
    statementsDB := [⟨"s1", "g7", "p1", "a", 1, true⟩],
    votes := [] }

/-- The self-vote of the on-stage player of `c7State`. -/
def c7Req : VoteRequest :=
  { voterId := "p1", kind := VoteKind.truth, votedPlayerId := none,
    votedStatementId := some "s1" }

/-- A voting-author game with one vote already cast (used for the projection
witness). -/
def c9State : GameState :=
  { game := mkGame "g9" GameStatus.votingAuthor 1 0 (some "p1") ["p1", "p2", "p3"],
    players := [mkPlayer "p1" 0 true, mkPlayer "p2" 0 true, mkPlayer "p3" 0 true],
    statementsDB := [⟨"s1", "g9", "p1", "a", 1, true⟩],
    votes := [⟨1, "p2", VoteKind.author, some "p1", none, true⟩] }

/-- A true statement of a different game, authored by the voter themself. -/
def c10Stmt : Statement :=
  { id := "sx", gameId := "otherGame", playerId := "p2", text := "foreign",
    order := 1, isTrue := true }

/-- A voting-truth game whose statements table also holds `c10Stmt`. -/
def c10State : GameState :=
  { game := mkGame "g10" GameStatus.votingTruth 3 1 (some "p1") ["p1", "p2", "p3"],
    players := [mkPlayer "p1" 0 true, mkPlayer "p2" 0 true, mkPlayer "p3" 0 true],
    statementsDB := [⟨"s1", "g10", "p1", "a", 1, false⟩, c10Stmt],
    votes := [] }

/-- A truth vote naming the foreign statement `c10Stmt`. -/
def c10Req : VoteRequest :=
  { voterId := "p2", kind := VoteKind.truth, votedPlayerId := none,
    votedStatementId := some "sx" }

/-- The state `c10State` moves to: the vote is recorded as correct. -/
def c10Next : GameState :=
  { c10State with
    votes := c10State.votes ++ [⟨1, "p2", VoteKind.truth, none, some "sx", true⟩] }

/-- Truth round about to be completed by two concurrent votes: p2 and p3 are
the last two voters and both pick the true statement. -/
def raceState : GameState :=
  { game := mkGame "gr" GameStatus.votingTruth 3 1 (some "p1") ["p1", "p2", "p3"],
    players := [mkPlayer "p1" 0 true, mkPlayer "p2" 0 true, mkPlayer "p3" 0 true],
    statementsDB := [⟨"s1", "gr", "p1", "a", 1, false⟩,
      ⟨"s2", "gr", "p1", "b", 2, true⟩, ⟨"s3", "gr", "p1", "c", 3, false⟩],
    votes := [] }

/-- First concurrent truth vote (p2, correct). -/
def raceReqA : VoteRequest :=
  { voterId := "p2", kind := VoteKind.truth, votedPlayerId := none,
    votedStatementId := some "s2" }

/-- Second concurrent truth vote (p3, correct). -/
def raceReqB : VoteRequest :=
  { voterId := "p3", kind := VoteKind.truth, votedPlayerId := none,
    votedStatementId := some "s2" }

theorem hasPlayer_addScore (ps : List Player) (i q : String) (n : Nat) :
    hasPlayer (addScore ps i n) q = hasPlayer ps q := by
  induction ps with
  | nil => rfl
  | cons p ps ih =>
    simp only [addScore, List.map_cons, hasPlayer, List.any_cons] at *
    by_cases hpi : p.id = i <;> simp [hpi, ih, hasPlayer, addScore] at *

theorem hasPlayer_setScore (ps : List Player) (i q : String) (n : Nat) :
    hasPlayer (setScore ps i n) q = hasPlayer ps q := by
  induction ps with
  | nil => rfl
  | cons p ps ih =>
    simp only [setScore, List.map_cons, hasPlayer, List.any_cons] at *
    by_cases hpi : p.id = i <;> simp [hpi, ih, hasPlayer, setScore] at *

theorem scoreOf_addScore_of_ne (ps : List Player) (i q : String) (n : Nat)
    (h : q ≠ i) : scoreOf (addScore ps i n) q = scoreOf ps q := by
  induction ps with
  | nil => rfl
  | cons p ps ih =>
    simp only [addScore, List.map_cons, scoreOf] at *
    by_cases hpi : p.id = i <;> by_cases hpq : p.id = q <;>
      simp_all [scoreOf, addScore]

theorem scoreOf_addScore_self (ps : List Player) (i : String) (n : Nat)
    (h : hasPlayer ps i = true) :
    scoreOf (addScore ps i n) i = scoreOf ps i + n := by
  induction ps with
  | nil => simp [hasPlayer] at h
  | cons p ps ih =>
    by_cases hpi : p.id = i
    · simp [addScore, scoreOf, hpi]
    · have h2 : hasPlayer ps i = true := by
        simp only [hasPlayer, List.any_cons, Bool.or_eq_true, decide_eq_true_eq] at h
        rcases h with h | h
        · exact absurd h hpi
        · simpa [hasPlayer] using h
      have lhs : scoreOf (addScore (p :: ps) i n) i = scoreOf (addScore ps i n) i := by
        simp [addScore, scoreOf, hpi]
      have rhs : scoreOf (p :: ps) i = scoreOf ps i := by simp [scoreOf, hpi]
      rw [lhs, rhs, ih h2]

theorem scoreOf_setScore_of_ne (ps : List Player) (i q : String) (n : Nat)
    (h : q ≠ i) : scoreOf (setScore ps i n) q = scoreOf ps q := by
  induction ps with
  | nil => rfl
  | cons p ps ih =>
    simp only [setScore, List.map_cons, scoreOf] at *
    by_cases hpi : p.id = i <;> by_cases hpq : p.id = q <;>
      simp_all [scoreOf, setScore]

theorem scoreOf_setScore_self (ps : List Player) (i : String) (n : Nat)
    (h : hasPlayer ps i = true) :
    scoreOf (setScore ps i n) i = n := by
  induction ps with
  | nil => simp [hasPlayer] at h
  | cons p ps ih =>
    by_cases hpi : p.id = i
    · simp [setScore, scoreOf, hpi]
    · have h2 : hasPlayer ps i = true := by
        simp only [hasPlayer, List.any_cons, Bool.or_eq_true, decide_eq_true_eq] at h
        rcases h with h | h
        · exact absurd h hpi
        · simpa [hasPlayer] using h
      have lhs : scoreOf (setScore (p :: ps) i n) i = scoreOf (setScore ps i n) i := by
        simp [setScore, scoreOf, hpi]
      rw [lhs, ih h2]

theorem addScore_absent (ps : List Player) (i : String) (n : Nat)
    (h : hasPlayer ps i = false) : addScore ps i n = ps := by
  induction ps with
  | nil => rfl
  | cons p ps ih =>
    simp only [hasPlayer, List.any_cons, Bool.or_eq_false_iff, decide_eq_false_iff_not] at h
    have h2 : addScore ps i n = ps := ih (by simpa [hasPlayer] using h.2)
    simp only [addScore, List.map_cons, if_neg h.1]
    exact congrArg (p :: ·) h2

theorem hasPlayer_awardEach (ps : List Player) (vs : List Vote) (q : String) :
    hasPlayer (awardEach ps vs) q = hasPlayer ps q := by
  induction vs generalizing ps with
  | nil => rfl
  | cons v vs ih =>
    simp only [awardEach, List.foldl_cons] at *
    exact (ih (addScore ps v.voterId 1)).trans (hasPlayer_addScore ps v.voterId q 1)

theorem hasPlayer_awardCorrect (ps : List Player) (vs : List Vote) (q : String) :
    hasPlayer (awardCorrect ps vs) q = hasPlayer ps q := by
  induction vs generalizing ps with
  | nil => rfl
  | cons v vs ih =>
    simp only [awardCorrect, List.foldl_cons] at *
    by_cases hc : v.isCorrect = true
    · simp only [if_pos hc]
      exact (ih (addScore ps v.voterId 1)).trans (hasPlayer_addScore ps v.voterId q 1)
    · simp only [if_neg hc]
      exact ih ps

theorem scoreOf_awardEach (ps : List Player) (vs : List Vote) (q : String)
    (h : hasPlayer ps q = true) :
    scoreOf (awardEach ps vs) q =
      scoreOf ps q + (vs.filter (fun v => decide (v.voterId = q))).length := by
  induction vs generalizing ps with
  | nil => simp [awardEach]
  | cons v vs ih =>
    have hh : hasPlayer (addScore ps v.voterId 1) q = true := by
      rw [hasPlayer_addScore]; exact h
    simp only [awardEach, List.foldl_cons] at *
    rw [ih (addScore ps v.voterId 1) hh]
    by_cases hvq : v.voterId = q
    · rw [hvq, scoreOf_addScore_self ps q 1 h]
      simp [List.filter_cons, hvq]
      omega
    · rw [scoreOf_addScore_of_ne ps v.voterId q 1 (fun hh2 => hvq hh2.symm)]
      simp [List.filter_cons, hvq]

theorem scoreOf_awardCorrect (ps : List Player) (vs : List Vote) (q : String)
    (h : hasPlayer ps q = true) :
    scoreOf (awardCorrect ps vs) q =
      scoreOf ps q +
        (vs.filter (fun v => v.isCorrect && decide (v.voterId = q))).length := by
  induction vs generalizing ps with
  | nil => simp [awardCorrect]
  | cons v vs ih =>
    simp only [awardCorrect, List.foldl_cons] at *
    by_cases hc : v.isCorrect = true
    · have hh : hasPlayer (addScore ps v.voterId 1) q = true := by
        rw [hasPlayer_addScore]; exact h
      simp only [if_pos hc]
      rw [ih (addScore ps v.voterId 1) hh]
      by_cases hvq : v.voterId = q
      · rw [hvq, scoreOf_addScore_self ps q 1 h]
        simp [List.filter_cons, hc, hvq]
        omega
      · rw [scoreOf_addScore_of_ne ps v.voterId q 1 (fun hh2 => hvq hh2.symm)]
        simp [List.filter_cons, hc, hvq]
    · simp only [if_neg hc]
      rw [ih ps h]
      have hcf : v.isCorrect = false := by
        cases hb : v.isCorrect
        · rfl
        · exact absurd hb hc
      simp [List.filter_cons, hcf]

theorem length_filter_split {α : Type} (l : List α) (p : α → Bool) :
    (l.filter p).length + (l.filter (fun a => !p a)).length = l.length := by
  induction l with
  | nil => rfl
  | cons a l ih =>
    cases ha : p a <;> simp [List.filter_cons, ha] <;> omega

theorem authorRoundsFold_succ (ps : List Player) (vs : List Vote) (n : Nat) :
    authorRoundsFold ps vs (n + 1) =
      awardEach (authorRoundsFold ps vs n)
        (vs.filter (fun v =>
          decide (v.round = n + 1 ∧ v.kind = VoteKind.author ∧ v.isCorrect = true))) := by
  unfold authorRoundsFold
  rw [List.range_succ, List.foldl_append, List.foldl_cons, List.foldl_nil]

theorem hasPlayer_authorRoundsFold (ps : List Player) (vs : List Vote) (n : Nat)
    (q : String) : hasPlayer (authorRoundsFold ps vs n) q = hasPlayer ps q := by
  induction n with
  | zero => rfl
  | succ n ih =>
    rw [authorRoundsFold_succ, hasPlayer_awardEach, ih]

theorem scoreOf_authorRoundsFold (ps : List Player) (vs : List Vote) (n : Nat)
    (q : String) (h : hasPlayer ps q = true) :
    scoreOf (authorRoundsFold ps vs n) q =
      scoreOf ps q +
        ((List.range n).map (fun r => correctAuthorVotesBy vs (r + 1) q)).sum := by
  induction n with
  | zero => simp [authorRoundsFold]
  | succ n ih =>
    rw [authorRoundsFold_succ]
    rw [scoreOf_awardEach _ _ q ((hasPlayer_authorRoundsFold ps vs n q).trans h)]
    rw [ih]
    rw [List.range_succ, List.map_append, List.sum_append, List.map_cons, List.map_nil,
      List.sum_cons, List.sum_nil, Nat.add_assoc]
    rfl

theorem scoreOf_calculateAllAuthorPoints (ps : List Player) (vs : List Vote)
    (order : List String) (q : String) (h : hasPlayer ps q = true) :
    scoreOf (calculateAllAuthorPoints ps vs order) q =
      scoreOf ps q +
        ((List.range order.length).map
          (fun r => correctAuthorVotesBy vs (r + 1) q)).sum :=
  scoreOf_authorRoundsFold ps vs order.length q h

theorem calculateTruthPoints_eq (ps : List Player) (vs : List Vote) (r : Nat)
    (cp : String) :
    calculateTruthPoints ps vs r cp =
      if ((truthVotesOf vs r).filter (fun v => !v.isCorrect)).length > 0 then
        setScore (awardCorrect ps (truthVotesOf vs r)) cp
          (scoreOf ps cp + ((truthVotesOf vs r).filter (fun v => !v.isCorrect)).length)
      else awardCorrect ps (truthVotesOf vs r) := rfl

theorem scoreOf_calculateTruthPoints_voter (ps : List Player) (vs : List Vote)
    (r : Nat) (cp q : String) (hq : hasPlayer ps q = true) (hne : q ≠ cp) :
    scoreOf (calculateTruthPoints ps vs r cp) q =
      scoreOf ps q +
        ((truthVotesOf vs r).filter
          (fun v => v.isCorrect && decide (v.voterId = q))).length := by
  rw [calculateTruthPoints_eq]
  split_ifs with hf
  · rw [scoreOf_setScore_of_ne _ cp q _ hne]
    exact scoreOf_awardCorrect ps _ q hq
  · exact scoreOf_awardCorrect ps _ q hq

theorem scoreOf_calculateTruthPoints_cp (ps : List Player) (vs : List Vote)
    (r : Nat) (cp : String) (hcp : hasPlayer ps cp = true)
    (hnv : ∀ v ∈ vs, v.round = r → v.kind = VoteKind.truth → v.voterId ≠ cp) :
    scoreOf (calculateTruthPoints ps vs r cp) cp =
      scoreOf ps cp + ((truthVotesOf vs r).filter (fun v => !v.isCorrect)).length := by
  have hmem : ∀ v ∈ truthVotesOf vs r, v.voterId ≠ cp := by
    intro v hv
    unfold truthVotesOf at hv
    rw [List.mem_filter] at hv
    have h2 := of_decide_eq_true hv.2
    exact hnv v hv.1 h2.1 h2.2
  have hscored : scoreOf (awardCorrect ps (truthVotesOf vs r)) cp = scoreOf ps cp := by
    rw [scoreOf_awardCorrect ps _ cp hcp]
    have hnil : ((truthVotesOf vs r).filter
        (fun v => v.isCorrect && decide (v.voterId = cp))) = [] := by
      rw [List.filter_eq_nil_iff]
      intro v hv
      simp [hmem v hv]
    rw [hnil]
    rfl
  rw [calculateTruthPoints_eq]
  split_ifs with hf
  · rw [scoreOf_setScore_self _ cp _ (by rw [hasPlayer_awardCorrect]; exact hcp)]
  · have hzero : ((truthVotesOf vs r).filter (fun v => !v.isCorrect)).length = 0 := by
      omega
    rw [hzero, Nat.add_zero]
    exact hscored

theorem voteInsertPhase_ok (g : Game) (s : GameState) (req : VoteRequest)
    (s1 : GameState) (h : voteInsertPhase g s req = Except.ok s1) :
    s1 = { s with votes := s.votes ++ [voteRecord g s req] } ∧
    (req.kind = VoteKind.author → g.status = GameStatus.votingAuthor) ∧
    (req.kind = VoteKind.truth → g.status = GameStatus.votingTruth) ∧
    some req.voterId ≠ g.currentPlayerId ∧
    hasVoted s.votes (voteRound g req.kind) req.voterId req.kind = false := by
  unfold voteInsertPhase at h
  split_ifs at h with h1 h2 h3 h4 h5 h6 <;> try exact Except.noConfusion h
  rw [Except.ok.injEq] at h
  subst h
  refine ⟨rfl, ?_, ?_, h5, ?_⟩
  · intro hk
    by_contra hst
    exact h3 ⟨hk, hst⟩
  · intro hk
    by_contra hst
    exact h4 ⟨hk, hst⟩
  · cases hb : hasVoted s.votes (voteRound g req.kind) req.voterId req.kind
    · rfl
    · exact absurd hb h6

theorem castVote_ok_elim (s : GameState) (req : VoteRequest) (s' : GameState)
    (h : castVote s req = Except.ok s') :
    voteInsertPhase s.game s req =
        Except.ok { s with votes := s.votes ++ [voteRecord s.game s req] } ∧
    s' = voteQuorumPhase s.game req
        { s with votes := s.votes ++ [voteRecord s.game s req] } := by
  unfold castVote at h
  cases hin : voteInsertPhase s.game s req with
  | error e => rw [hin] at h; simp [Except.map] at h
  | ok s1 =>
    have h1 := voteInsertPhase_ok s.game s req s1 hin
    rw [hin] at h
    simp only [Except.map] at h
    rw [Except.ok.injEq] at h
    refine ⟨?_, ?_⟩
    · rw [← h1.1]
    · rw [h1.1] at h
      exact h.symm

theorem voteQuorumPhase_fields (g : Game) (req : VoteRequest) (s : GameState) :
    (voteQuorumPhase g req s).game.playerOrder = s.game.playerOrder ∧
    (voteQuorumPhase g req s).game.adminToken = s.game.adminToken ∧
    (voteQuorumPhase g req s).game.id = s.game.id ∧
    (voteQuorumPhase g req s).votes = s.votes ∧
    (voteQuorumPhase g req s).statementsDB = s.statementsDB := by
  unfold voteQuorumPhase
  split_ifs <;> simp

theorem voteQuorumPhase_status_author (g : Game) (req : VoteRequest)
    (s : GameState) (hk : req.kind = VoteKind.author) :
    (voteQuorumPhase g req s).game.status = s.game.status ∨
    (voteQuorumPhase g req s).game.status = GameStatus.votingAuthor ∨
    (voteQuorumPhase g req s).game.status = GameStatus.resultsAuthor := by
  unfold voteQuorumPhase
  split_ifs with h1 h2 h3 <;> simp_all

theorem voteQuorumPhase_status_truth (g : Game) (req : VoteRequest)
    (s : GameState) (hk : req.kind = VoteKind.truth) :
    (voteQuorumPhase g req s).game.status = s.game.status ∨
    (voteQuorumPhase g req s).game.status = GameStatus.resultsTruth := by
  unfold voteQuorumPhase
  split_ifs with h1 h2 h3 <;> simp_all

theorem voteQuorumPhase_author_quorum (g : Game) (req : VoteRequest)
    (s : GameState) (hk : req.kind = VoteKind.author)
    (hq : eligibleVoters s.players g.currentPlayerId ≤
          countVotes s.votes g.currentRound VoteKind.author) :
    voteQuorumPhase g req s =
      if g.currentRound < g.playerOrder.length then
        { s with game := { s.game with
            status := GameStatus.votingAuthor
            currentRound := g.currentRound + 1
            truthRound := g.truthRound
            currentPlayerId := g.playerOrder[g.currentRound]? } }
      else
        { s with
            players := calculateAllAuthorPoints s.players s.votes g.playerOrder
            game := { s.game with
              status := GameStatus.resultsAuthor
              currentRound := g.currentRound
              truthRound := g.truthRound
              currentPlayerId := g.currentPlayerId } } := by
  unfold voteQuorumPhase
  rw [hk]
  rw [show voteRound g VoteKind.author = g.currentRound from rfl]
  rw [if_pos hq, if_pos rfl]

theorem voteQuorumPhase_truth_quorum (g : Game) (req : VoteRequest)
    (s : GameState) (hk : req.kind = VoteKind.truth)
    (hq : eligibleVoters s.players g.currentPlayerId ≤
          countVotes s.votes g.truthRound VoteKind.truth) :
    voteQuorumPhase g req s =
      { s with
          players := calculateTruthPoints s.players s.votes g.truthRound
            (g.currentPlayerId.getD "")
          game := { s.game with
            status := GameStatus.resultsTruth
            currentRound := g.currentRound
            truthRound := g.truthRound
            currentPlayerId := g.currentPlayerId } } := by
  unfold voteQuorumPhase
  rw [hk]
  rw [show voteRound g VoteKind.truth = g.truthRound from rfl]
  rw [if_pos hq, if_neg (by decide : ¬ VoteKind.truth = VoteKind.author)]

/-- C1: from results-truth, auto-advance either advances the truth round by
one, moves the on-stage pointer to the next player of `playerOrder` and
returns to voting-truth (when `truthRound < len(playerOrder)`), or finishes
the game (when `truthRound = len(playerOrder)`); it never produces
voting-author and never changes `currentRound`. -/
theorem autoAdvance_resultsTruth_spec (s s' : GameState)
    (hst : s.game.status = GameStatus.resultsTruth)
    (hok : autoAdvance s = Except.ok s') :
    (s.game.truthRound < s.game.playerOrder.length →
      s'.game.truthRound = s.game.truthRound + 1 ∧
      s'.game.currentPlayerId = s.game.playerOrder[s.game.truthRound]? ∧
      s'.game.status = GameStatus.votingTruth) ∧
    (s.game.truthRound = s.game.playerOrder.length →
      s'.game.status = GameStatus.finished) ∧
    s'.game.status ≠ GameStatus.votingAuthor ∧
    s'.game.currentRound = s.game.currentRound := by
  unfold autoAdvance at hok
  have hne : ¬ s.game.status = GameStatus.resultsAuthor := by
    rw [hst]
    decide
  rw [if_neg hne, if_pos hst] at hok
  by_cases hlt : s.game.truthRound < s.game.playerOrder.length
  · rw [if_pos hlt] at hok
    rw [Except.ok.injEq] at hok
    subst hok
    refine ⟨fun _ => ⟨rfl, rfl, rfl⟩, fun he => by omega, by simp, rfl⟩
  · rw [if_neg hlt] at hok
    rw [Except.ok.injEq] at hok
    subst hok
    refine ⟨fun h2 => absurd h2 hlt, fun _ => rfl, by simp, rfl⟩

/-- Witness for C1 at the concrete state `c1State`. -/
theorem autoAdvance_resultsTruth_spec_witness :
    c1State.game.status = GameStatus.resultsTruth ∧
    c1State.game.truthRound < c1State.game.playerOrder.length ∧
    c1Next.game.truthRound = c1State.game.truthRound + 1 ∧
    c1Next.game.status = GameStatus.votingTruth ∧
    c1Next.game.currentRound = c1State.game.currentRound := by
  have h := autoAdvance_resultsTruth_spec c1State c1Next (by decide) rfl
  exact ⟨by decide, by decide, (h.1 (by decide)).1, (h.1 (by decide)).2.2, h.2.2.2⟩

/-- C3: from results-author, auto-advance moves to voting-truth, sets
`truthRound = 1` and puts the first player of `playerOrder` on stage. -/
theorem autoAdvance_resultsAuthor_spec (s s' : GameState)
    (hst : s.game.status = GameStatus.resultsAuthor)
    (hok : autoAdvance s = Except.ok s') :
    s'.game.status = GameStatus.votingTruth ∧
    s'.game.truthRound = 1 ∧
    s'.game.currentPlayerId = s.game.playerOrder.head? := by
  unfold autoAdvance at hok
  rw [if_pos hst] at hok
  rw [Except.ok.injEq] at hok
  subst hok
  exact ⟨rfl, rfl, rfl⟩

/-- Witness for C3 at the concrete state `c3State`. -/
theorem autoAdvance_resultsAuthor_spec_witness :
    c3State.game.status = GameStatus.resultsAuthor ∧
    c3Next.game.status = GameStatus.votingTruth ∧
    c3Next.game.truthRound = 1 ∧
    c3Next.game.currentPlayerId = some "p1" := by
  have h := autoAdvance_resultsAuthor_spec c3State c3Next (by decide) rfl
  exact ⟨by decide, h.1, h.2.1, h.2.2.trans (by decide)⟩

/-- C2: the start operation succeeds only from the lobby and only with at
least two ready players; on success it freezes `playerOrder` as the ordered
list of exactly the ready players, sets `currentRound = 1`, puts the first
player of the frozen order on stage and moves to voting-author.  No later
operation writes `playerOrder`: casting a vote and auto-advancing preserve
it and never return a game to the lobby, the only status the start
operation (the sole writer) accepts. -/
theorem startGame_spec (s : GameState) (tok : String) :
    (∀ s', startGame s tok = Except.ok s' →
      2 ≤ (s.players.filter (fun p => p.hasSubmittedStatements)).length ∧
      s'.game.playerOrder =
        (s.players.filter (fun p => p.hasSubmittedStatements)).map (fun p => p.id) ∧
      s'.game.currentRound = 1 ∧
      s'.game.currentPlayerId = s'.game.playerOrder.head? ∧
      s'.game.status = GameStatus.votingAuthor ∧
      s.game.status = GameStatus.lobby) ∧
    (∀ t req t', castVote t req = Except.ok t' →
      t'.game.playerOrder = t.game.playerOrder ∧
      t'.game.status ≠ GameStatus.lobby) ∧
    (∀ t t', autoAdvance t = Except.ok t' →
      t'.game.playerOrder = t.game.playerOrder ∧
      t'.game.status ≠ GameStatus.lobby) := by
  refine ⟨?_, ?_, ?_⟩
  · intro s' h
    unfold startGame at h
    split_ifs at h with h1 h2 h3 <;> try exact Except.noConfusion h
    rw [Except.ok.injEq] at h
    subst h
    refine ⟨by omega, rfl, rfl, rfl, rfl, of_not_not h2⟩
  · intro t req t' h
    obtain ⟨hins, hs'⟩ := castVote_ok_elim t req t' h
    have hf := voteInsertPhase_ok t.game t req _ hins
    rw [hs']
    refine ⟨(voteQuorumPhase_fields t.game req _).1, ?_⟩
    cases hkind : req.kind with
    | author =>
      have hst := hf.2.1 hkind
      rcases voteQuorumPhase_status_author t.game req
          { t with votes := t.votes ++ [voteRecord t.game t req] } hkind with
        hq | hq | hq
      · rw [hq]
        show t.game.status ≠ GameStatus.lobby
        rw [hst]
        decide
      · rw [hq]
        decide
      · rw [hq]
        decide
    | truth =>
      have hst := hf.2.2.1 hkind
      rcases voteQuorumPhase_status_truth t.game req
          { t with votes := t.votes ++ [voteRecord t.game t req] } hkind with
        hq | hq
      · rw [hq]
        show t.game.status ≠ GameStatus.lobby
        rw [hst]
        decide
      · rw [hq]
        decide
  · intro t t' h
    unfold autoAdvance at h
    split_ifs at h with h1 h2 h3 <;> try exact Except.noConfusion h
    all_goals rw [Except.ok.injEq] at h
    all_goals subst h
    · exact ⟨rfl, by simp⟩
    · exact ⟨rfl, by simp⟩
    · exact ⟨rfl, by simp⟩

/-- Witness for C2: starting `c2State` freezes the three ready players, in
query order, as `playerOrder` and ignores the unready fourth player. -/
theorem startGame_spec_witness :
    startGame c2State "adm" = Except.ok c2Started ∧
    c2Started.game.playerOrder = ["p1", "p2", "p3"] ∧
    c2Started.game.currentRound = 1 ∧
    c2Started.game.currentPlayerId = some "p1" ∧
    c2Started.game.status = GameStatus.votingAuthor := by
  have h := (startGame_spec c2State "adm").1 c2Started rfl
  refine ⟨rfl, h.2.1.trans (by decide), h.2.2.1, ?_, h.2.2.2.2.1⟩
  exact h.2.2.2.1.trans (by decide)

/-- C6: every operation moves the status forward in the fixed sequence
lobby, voting-author, results-author, voting-truth, results-truth, finished
(or leaves it unchanged), the only sanctioned return being results-truth
back to voting-truth; and from a finished game no operation succeeds at
all, so status, rounds, votes and scores are frozen. -/
theorem status_forward_only (s : GameState) :
    (∀ tok s', startGame s tok = Except.ok s' →
      ForwardStep s.game.status s'.game.status) ∧
    (∀ req s', castVote s req = Except.ok s' →
      ForwardStep s.game.status s'.game.status) ∧
    (∀ s', autoAdvance s = Except.ok s' →
      ForwardStep s.game.status s'.game.status) ∧
    (s.game.status = GameStatus.finished →
      (∀ tok s', ¬ startGame s tok = Except.ok s') ∧
      (∀ req s', ¬ castVote s req = Except.ok s') ∧
      (∀ s', ¬ autoAdvance s = Except.ok s')) := by
  refine ⟨?_, ?_, ?_, ?_⟩
  · intro tok s' h
    unfold startGame at h
    split_ifs at h with h1 h2 h3 <;> try exact Except.noConfusion h
    rw [Except.ok.injEq] at h
    subst h
    rw [of_not_not h2]
    exact Or.inr (Or.inl (show statusRank GameStatus.lobby <
      statusRank GameStatus.votingAuthor by decide))
  · intro req s' h
    obtain ⟨hins, hs'⟩ := castVote_ok_elim s req s' h
    have hf := voteInsertPhase_ok s.game s req _ hins
    rw [hs']
    cases hkind : req.kind with
    | author =>
      have hst := hf.2.1 hkind
      rcases voteQuorumPhase_status_author s.game req
          { s with votes := s.votes ++ [voteRecord s.game s req] } hkind with
        hq | hq | hq
      · exact Or.inl hq
      · exact Or.inl (hq.trans hst.symm)
      · rw [hq, hst]
        exact Or.inr (Or.inl (by decide))
    | truth =>
      have hst := hf.2.2.1 hkind
      rcases voteQuorumPhase_status_truth s.game req
          { s with votes := s.votes ++ [voteRecord s.game s req] } hkind with
        hq | hq
      · exact Or.inl hq
      · rw [hq, hst]
        exact Or.inr (Or.inl (by decide))
  · intro s' h
    unfold autoAdvance at h
    split_ifs at h with h1 h2 h3 <;> try exact Except.noConfusion h
    all_goals rw [Except.ok.injEq] at h
    all_goals subst h
    · rw [h1]
      exact Or.inr (Or.inl (show statusRank GameStatus.resultsAuthor <
        statusRank GameStatus.votingTruth by decide))
    · exact Or.inr (Or.inr ⟨h2, rfl⟩)
    · rw [h2]
      exact Or.inr (Or.inl (show statusRank GameStatus.resultsTruth <
        statusRank GameStatus.finished by decide))
  · intro hfin
    refine ⟨?_, ?_, ?_⟩
    · intro tok s' h
      unfold startGame at h
      split_ifs at h with h1 h2 h3 <;> try exact Except.noConfusion h
      rw [hfin] at h2
      exact h2 (by decide)
    · intro req s' h
      obtain ⟨hins, _⟩ := castVote_ok_elim s req s' h
      have hf := voteInsertPhase_ok s.game s req _ hins
      cases hkind : req.kind with
      | author =>
        have hst := hf.2.1 hkind
        rw [hfin] at hst
        exact absurd hst (by decide)
      | truth =>
        have hst := hf.2.2.1 hkind
        rw [hfin] at hst
        exact absurd hst (by decide)
    · intro s' h
      unfold autoAdvance at h
      rw [hfin] at h
      rw [if_neg (by decide), if_neg (by decide)] at h
      exact Except.noConfusion h

/-- Witness for C6: starting the lobby `c6State` is a forward step. -/
theorem status_forward_only_witness :
    startGame c6State "adm" = Except.ok c6Started ∧
    ForwardStep c6State.game.status c6Started.game.status :=
  ⟨rfl, (status_forward_only c6State).1 "adm" c6Started rfl⟩

/-- C4 counterexample: in `c4CexState` a third player joined without
submitting statements, so the route's quorum (players other than the
on-stage one) is 2 while `len(playerOrder) - 1 = 1`.  The accepted author
vote brings the round count to `len(playerOrder) - 1` with
`currentRound < len(playerOrder)`, yet the game does not advance. -/
theorem authorQuorum_cex :
    (castVote c4CexState c4CexReq).toOption.map
        (fun t => (t.game.status, t.game.currentRound)) =
      some (GameStatus.votingAuthor, 1) ∧
    (castVote c4CexState c4CexReq).toOption.map
        (fun t => countVotes t.votes c4CexState.game.currentRound VoteKind.author) =
      some (c4CexState.game.playerOrder.length - 1) ∧
    c4CexState.game.currentRound < c4CexState.game.playerOrder.length ∧
    ¬ (castVote c4CexState c4CexReq).toOption.map (fun t => t.game.currentRound) =
      some (c4CexState.game.currentRound + 1) := by
  exact ⟨by decide, by decide, by decide, by decide⟩

/-- C4 (amended): when an accepted author vote brings the round's vote count
to the number of game players other than the on-stage player (which equals
`len(playerOrder) - 1` exactly when every joined player submitted
statements): if `currentRound < len(playerOrder)` the game advances to the
next author round with no points awarded, otherwise all author rounds are
scored (+1 per correct author vote of each round 1..len(playerOrder)) and
the game moves to results-author. -/
theorem authorQuorum_advance_or_score (s s' : GameState) (req : VoteRequest)
    (hk : req.kind = VoteKind.author)
    (hok : castVote s req = Except.ok s')
    (hq : eligibleVoters s.players s.game.currentPlayerId ≤
          countVotes s'.votes s.game.currentRound VoteKind.author) :
    (s.game.currentRound < s.game.playerOrder.length →
      s'.game.status = GameStatus.votingAuthor ∧
      s'.game.currentRound = s.game.currentRound + 1 ∧
      s'.game.currentPlayerId = s.game.playerOrder[s.game.currentRound]? ∧
      s'.players = s.players) ∧
    (s.game.playerOrder.length ≤ s.game.currentRound →
      s'.game.status = GameStatus.resultsAuthor ∧
      s'.game.currentRound = s.game.currentRound ∧
      ∀ q, hasPlayer s.players q = true →
        scoreOf s'.players q = scoreOf s.players q +
          ((List.range s.game.playerOrder.length).map
            (fun r => correctAuthorVotesBy s'.votes (r + 1) q)).sum) := by
  obtain ⟨hins, hs'⟩ := castVote_ok_elim s req s' hok
  have hv : s'.votes = s.votes ++ [voteRecord s.game s req] := by
    rw [hs']
    exact (voteQuorumPhase_fields s.game req _).2.2.2.1
  rw [hv] at hq
  rw [voteQuorumPhase_author_quorum s.game req
    { s with votes := s.votes ++ [voteRecord s.game s req] } hk hq] at hs'
  by_cases hlt : s.game.currentRound < s.game.playerOrder.length
  · rw [if_pos hlt] at hs'
    subst hs'
    exact ⟨fun _ => ⟨rfl, rfl, rfl, rfl⟩, fun hge => absurd hlt (by omega)⟩
  · rw [if_neg hlt] at hs'
    subst hs'
    refine ⟨fun hlt2 => absurd hlt2 hlt, fun _ => ⟨rfl, rfl, ?_⟩⟩
    intro q hqp
    exact scoreOf_calculateAllAuthorPoints s.players
      (s.votes ++ [voteRecord s.game s req]) s.game.playerOrder q hqp

/-- Witness for C4 (amended) at the two-player game `c4State`: the
quorum-completing vote advances the game to round two. -/
theorem authorQuorum_advance_witness :
    castVote c4State c4Req = Except.ok c4Next ∧
    eligibleVoters c4State.players c4State.game.currentPlayerId ≤
      countVotes c4Next.votes c4State.game.currentRound VoteKind.author ∧
    c4Next.game.status = GameStatus.votingAuthor ∧
    c4Next.game.currentRound = c4State.game.currentRound + 1 ∧
    c4Next.players = c4State.players := by
  have h := authorQuorum_advance_or_score c4State c4Next c4Req rfl rfl (by decide)
  exact ⟨rfl, by decide, (h.1 (by decide)).1, (h.1 (by decide)).2.1,
    (h.1 (by decide)).2.2.2⟩

/-- C5: when an accepted truth vote brings the truth round's vote count to
the quorum (the game players other than the on-stage player), the round is
scored immediately and the game moves to results-truth: every voter gains
one point per correct truth vote of theirs that round (one, under the
at-most-one-vote invariant), and the on-stage player gains
`eligibleVoters - correctVotes` fooling points. -/
theorem truthQuorum_scoring (s s' : GameState) (req : VoteRequest) (cp : String)
    (hk : req.kind = VoteKind.truth)
    (hcp : s.game.currentPlayerId = some cp)
    (hcpP : hasPlayer s.players cp = true)
    (hok : castVote s req = Except.ok s')
    (hq : countVotes s'.votes s.game.truthRound VoteKind.truth =
          eligibleVoters s.players s.game.currentPlayerId)
    (hnostage : ∀ v ∈ s.votes, v.round = s.game.truthRound →
      v.kind = VoteKind.truth → v.voterId ≠ cp) :
    s'.game.status = GameStatus.resultsTruth ∧
    (∀ q, q ≠ cp → hasPlayer s.players q = true →
      scoreOf s'.players q = scoreOf s.players q +
        ((truthVotesOf s'.votes s.game.truthRound).filter
          (fun v => v.isCorrect && decide (v.voterId = q))).length) ∧
    scoreOf s'.players cp = scoreOf s.players cp +
      (eligibleVoters s.players s.game.currentPlayerId -
        countCorrectTruth s'.votes s.game.truthRound) := by
  obtain ⟨hins, hs'⟩ := castVote_ok_elim s req s' hok
  have hfacts := voteInsertPhase_ok s.game s req _ hins
  have hv : s'.votes = s.votes ++ [voteRecord s.game s req] := by
    rw [hs']
    exact (voteQuorumPhase_fields s.game req _).2.2.2.1
  rw [hv] at hq
  rw [voteQuorumPhase_truth_quorum s.game req
    { s with votes := s.votes ++ [voteRecord s.game s req] } hk hq.ge] at hs'
  subst hs'
  have hcps : s.game.currentPlayerId.getD "" = cp := by
    rw [hcp]
    rfl
  rw [hv, hcps]
  refine ⟨rfl, ?_, ?_⟩
  · intro q hne hqp
    exact scoreOf_calculateTruthPoints_voter s.players
      (s.votes ++ [voteRecord s.game s req]) s.game.truthRound cp q hqp hne
  · have hnv : ∀ v ∈ s.votes ++ [voteRecord s.game s req],
        v.round = s.game.truthRound → v.kind = VoteKind.truth → v.voterId ≠ cp := by
      intro v hvmem hr hkv
      rcases List.mem_append.mp hvmem with hm | hm
      · exact hnostage v hm hr hkv
      · rw [List.mem_singleton] at hm
        subst hm
        intro heq
        apply hfacts.2.2.2.1
        rw [hcp]
        exact congrArg some heq
    have hchar := scoreOf_calculateTruthPoints_cp s.players
      (s.votes ++ [voteRecord s.game s req]) s.game.truthRound cp hcpP hnv
    rw [hchar]
    have hsplit : ((truthVotesOf (s.votes ++ [voteRecord s.game s req])
          s.game.truthRound).filter (fun v => v.isCorrect)).length +
        ((truthVotesOf (s.votes ++ [voteRecord s.game s req])
          s.game.truthRound).filter (fun v => !v.isCorrect)).length =
        (truthVotesOf (s.votes ++ [voteRecord s.game s req])
          s.game.truthRound).length :=
      length_filter_split _ _
    have hcount : (truthVotesOf (s.votes ++ [voteRecord s.game s req])
        s.game.truthRound).length =
        eligibleVoters s.players s.game.currentPlayerId := hq
    unfold countCorrectTruth
    omega

/-- Witness for C5 at the concrete scenario `c5State` (spec scenario B):
the correct guesser p2 gains one point and on-stage p1 gains one fooling
point for the single incorrect guesser. -/
theorem truthQuorum_scoring_witness :
    castVote c5State c5Req = Except.ok c5Next ∧
    countVotes c5Next.votes c5State.game.truthRound VoteKind.truth =
      eligibleVoters c5State.players c5State.game.currentPlayerId ∧
    c5Next.game.status = GameStatus.resultsTruth ∧
    scoreOf c5Next.players "p2" = scoreOf c5State.players "p2" + 1 ∧
    scoreOf c5Next.players "p1" = scoreOf c5State.players "p1" +
      (eligibleVoters c5State.players c5State.game.currentPlayerId -
        countCorrectTruth c5Next.votes c5State.game.truthRound) := by
  have h := truthQuorum_scoring c5State c5Next c5Req "p1" rfl rfl (by decide) rfl
    (by decide) (by decide)
  exact ⟨rfl, by decide, h.1, (h.2.1 "p2" (by decide) (by decide)).trans (by decide),
    h.2.2⟩

/-- C9: in the status projection, a statement's `isTrue` flag is populated
only when the status is results-truth or finished; the per-voter roster is
present only during voting-truth; and during voting-author the projection
carries the vote count but an empty voter id list and no roster. -/
theorem statusProjection_reveal_gating (s : GameState) :
    (∀ l, (statusProjection s).currentStatements = some l →
      ∀ pst ∈ l, pst.isTrue ≠ none →
        s.game.status = GameStatus.resultsTruth ∨
        s.game.status = GameStatus.finished) ∧
    ((statusProjection s).voterStatus ≠ none →
      s.game.status = GameStatus.votingTruth) ∧
    (s.game.status = GameStatus.votingAuthor →
      (statusProjection s).voterStatus = none ∧
      (statusProjection s).voterIds = [] ∧
      (0 < s.game.currentRound →
        (statusProjection s).votesReceived =
          countVotes s.votes s.game.currentRound VoteKind.author)) := by
  refine ⟨?_, ?_, ?_⟩
  · intro l hl pst hmem hne
    by_cases hrev : s.game.status = GameStatus.resultsTruth ∨
        s.game.status = GameStatus.finished
    · exact hrev
    · exfalso
      apply hne
      cases hcp : s.game.currentPlayerId with
      | none =>
        simp [statusProjection, hcp] at hl
      | some cp =>
        simp only [statusProjection, hcp] at hl
        split_ifs at hl
        rw [Option.some.injEq] at hl
        subst hl
        rw [List.mem_map] at hmem
        obtain ⟨st, _, hfst⟩ := hmem
        rw [← hfst]
  · intro hvs
    by_contra hne
    apply hvs
    simp [statusProjection, hne]
  · intro hva
    have hnvt : ¬ s.game.status = GameStatus.votingTruth := by
      rw [hva]
      decide
    refine ⟨by simp [statusProjection, hnvt], ?_, ?_⟩
    · by_cases h0 : 0 < s.game.currentRound
      · simp [statusProjection, hva, h0]
      · simp [statusProjection, hva, h0, hnvt]
    · intro h0
      simp [statusProjection, hva, h0]

/-- Witness for C9 at the voting-author state `c9State`: no roster, no voter
ids, and the vote count is reported. -/
theorem statusProjection_reveal_witness :
    c9State.game.status = GameStatus.votingAuthor ∧
    (statusProjection c9State).voterStatus = none ∧
    (statusProjection c9State).voterIds = [] ∧
    (statusProjection c9State).votesReceived =
      countVotes c9State.votes c9State.game.currentRound VoteKind.author := by
  have h := (statusProjection_reveal_gating c9State).2.2 rfl
  exact ⟨rfl, h.1, h.2.1, h.2.2 (by decide)⟩

/-- C7: a vote request is rejected, with no vote persisted and no state
change, whenever its kind does not match the game status, the voter is the
on-stage player, or the voter already has a vote for the same round and
kind; the request then produces no successor state at all, so in particular
a self-vote leaves the quorum count unchanged. -/
theorem vote_rejections (s : GameState) (req : VoteRequest)
    (h : (req.kind = VoteKind.author ∧ s.game.status ≠ GameStatus.votingAuthor) ∨
         (req.kind = VoteKind.truth ∧ s.game.status ≠ GameStatus.votingTruth) ∨
         some req.voterId = s.game.currentPlayerId ∨
         hasVoted s.votes (voteRound s.game req.kind) req.voterId req.kind = true) :
    (castVote s req).toOption = none := by
  cases hres : castVote s req with
  | error e => rfl
  | ok s' =>
    exfalso
    obtain ⟨hins, _⟩ := castVote_ok_elim s req s' hres
    have hf := voteInsertPhase_ok s.game s req _ hins
    rcases h with ⟨hk, hst⟩ | ⟨hk, hst⟩ | hself | hdup
    · exact hst (hf.2.1 hk)
    · exact hst (hf.2.2.1 hk)
    · exact hf.2.2.2.1 hself
    · rw [hf.2.2.2.2] at hdup
      exact absurd hdup (by decide)

/-- Witness for C7: the on-stage player of `c7State` votes on their own
round and is rejected. -/
theorem vote_rejections_witness :
    some c7Req.voterId = c7State.game.currentPlayerId ∧
    (castVote c7State c7Req).toOption = none :=
  ⟨rfl, vote_rejections c7State c7Req (Or.inr (Or.inr (Or.inl rfl)))⟩

/-- C8 evidence: the vote route updates the game unconditionally, with no
compare-and-set on the phase field.  When the two quorum-completing truth
votes of `raceState` interleave (both handlers read the game before either
writes), both quorum phases fire: the scoring pass runs twice and the two
correct voters are each credited 2 points.  The same two requests run
sequentially score each voter exactly once. -/
theorem race_double_scoring :
    (racyQuorumExecution raceState raceReqA raceReqB).toOption.map
        (fun t => (scoreOf t.players "p2", scoreOf t.players "p3", t.game.status)) =
      some (2, 2, GameStatus.resultsTruth) ∧
    ((castVote raceState raceReqA).toOption.bind
        (fun t1 => (castVote t1 raceReqB).toOption)).map
        (fun t2 => (scoreOf t2.players "p2", scoreOf t2.players "p3")) =
      some (1, 1) := by
  exact ⟨by decide, by decide⟩

/-- C10: an accepted truth vote is stored with `isCorrect` equal to the
`isTrue` flag of whatever statement the request names, found by a global id
lookup; no hypothesis relates that statement to the game, the on-stage
player, or the voter. -/
theorem truthVote_any_statement (s s' : GameState) (req : VoteRequest)
    (sid : String) (st : Statement)
    (hk : req.kind = VoteKind.truth)
    (hsid : req.votedStatementId = some sid)
    (hfind : findStatement s.statementsDB sid = some st)
    (hok : castVote s req = Except.ok s') :
    s'.votes = s.votes ++
      [{ round := s.game.truthRound, voterId := req.voterId, kind := VoteKind.truth,
         votedPlayerId := none, votedStatementId := some sid,
         isCorrect := st.isTrue }] := by
  obtain ⟨hins, hs'⟩ := castVote_ok_elim s req s' hok
  have hv := (voteQuorumPhase_fields s.game req
    { s with votes := s.votes ++ [voteRecord s.game s req] }).2.2.2.1
  rw [hs', hv]
  unfold voteRecord voteRound voteIsCorrect
  simp [hk, hsid, hfind]

/-- Witness for C10: a vote naming `c10Stmt`, a true statement of a
different game written by the voter themself, is accepted and recorded
correct. -/
theorem truthVote_any_statement_witness :
    castVote c10State c10Req = Except.ok c10Next ∧
    c10Stmt.gameId ≠ c10State.game.id ∧
    c10Stmt.playerId = c10Req.voterId ∧
    c10Stmt.isTrue = true ∧
    c10Next.votes = c10State.votes ++
      [{ round := c10State.game.truthRound, voterId := c10Req.voterId,
         kind := VoteKind.truth, votedPlayerId := none,
         votedStatementId := some "sx", isCorrect := c10Stmt.isTrue }] := by
  refine ⟨rfl, by decide, rfl, rfl, ?_⟩
  exact truthVote_any_statement c10State c10Next c10Req "sx" c10Stmt rfl rfl rfl rfl

end Brizglass
